import Mathlib

/-!
# Verification of the BingX-to-Sheets reporting pipeline

Shallow embedding of `bingx_to_sheets.py`: the numeric normalizer
(`safe_float`, `safe_round`), the position aggregation and grid
construction (`write_all_positions_to_sheet`,
`format_all_positions_for_analysis`), the narrative-to-grid conversion
(`write_analysis_to_sheet`), the sheet-tab creation
(`ensure_sheet_exists`), the position fetch wrapper (`get_positions`)
and the narrative HTTP request (`send_to_perplexity_for_analysis`).

Python floats are modelled as exact rationals extended with the IEEE
special values `inf`, `-inf` and `nan`; finite arithmetic is exact
(binary double rounding and finite-overflow-to-infinity are not
modelled, and positive and negative zero are identified).  Rationals
are represented by a self-contained normalized numerator/denominator
pair so that every operation evaluates inside the kernel.  Python
exceptions are modelled with `Except`.
-/

set_option maxRecDepth 8000

namespace BingX

instance instDecEqExcept {ε α : Type} [DecidableEq ε] [DecidableEq α] :
    DecidableEq (Except ε α) := fun x y =>
  match x, y with
  | .ok a, .ok b =>
      if h : a = b then isTrue (congrArg Except.ok h)
      else isFalse (fun he => h (Except.ok.inj he))
  | .error a, .error b =>
      if h : a = b then isTrue (congrArg Except.error h)
      else isFalse (fun he => h (Except.error.inj he))
  | .ok _, .error _ => isFalse (fun he => Except.noConfusion he)
  | .error _, .ok _ => isFalse (fun he => Except.noConfusion he)

/-- An exact rational: integer numerator over natural denominator.
Every value the embedding constructs is normalized (positive
denominator coprime to the numerator), so structural equality is value
equality on constructed values. -/
structure Q where
  num : ℤ
  den : ℕ
deriving DecidableEq, Repr

namespace Q

/-- Normalize a numerator/denominator pair by their gcd. -/
def norm (n : ℤ) (d : ℕ) : Q :=
  let g := Nat.gcd n.natAbs d
  if g = 0 then ⟨0, 1⟩ else ⟨n / (g : ℤ), d / g⟩

/-- Embed an integer. -/
def ofInt (n : ℤ) : Q := ⟨n, 1⟩

def zero : Q := ⟨0, 1⟩

def add (a b : Q) : Q := norm (a.num * b.den + b.num * a.den) (a.den * b.den)

def mul (a b : Q) : Q := norm (a.num * b.num) (a.den * b.den)

def neg (a : Q) : Q := ⟨-a.num, a.den⟩

/-- Exact division; callers guard against a zero divisor. -/
def div (a b : Q) : Q :=
  if 0 ≤ b.num then norm (a.num * b.den) (a.den * b.num.natAbs)
  else norm (-(a.num * b.den)) (a.den * b.num.natAbs)

/-- `a < b` as cross multiplication (denominators are positive on all
constructed values). -/
def blt (a b : Q) : Bool := a.num * (b.den : ℤ) < b.num * (a.den : ℤ)

/-- `a ≤ b` as cross multiplication. -/
def ble (a b : Q) : Bool := a.num * (b.den : ℤ) ≤ b.num * (a.den : ℤ)

end Q

/-- Round a rational to the nearest integer, ties to even
(the rounding used by Python's `round`). -/
def rndHalfEven (a : Q) : ℤ :=
  let f := a.num.fdiv (a.den : ℤ)
  let r := a.num - f * (a.den : ℤ)
  if 2 * r < (a.den : ℤ) then f
  else if (a.den : ℤ) < 2 * r then f + 1
  else if f % 2 = 0 then f else f + 1

/-- Round a rational to `d` decimal places, ties to even. -/
def roundQ (a : Q) (d : ℕ) : Q :=
  Q.norm (rndHalfEven ⟨a.num * ((10 ^ d : ℕ) : ℤ), a.den⟩) (10 ^ d)

/-- Python exception classes relevant to the embedded code. -/
inductive PyError where
  | typeError
  | valueError
  | overflowError
  | zeroDivisionError
deriving DecidableEq, Repr

/-- Model of a Python `float`: an exact rational, or one of the IEEE
special values. -/
inductive PyFloat where
  | finite (q : Q)
  | inf
  | negInf
  | nan
deriving DecidableEq, Repr

namespace PyFloat

def zero : PyFloat := .finite Q.zero

/-- Python float addition (`x + y`), extended to the special values. -/
def add : PyFloat → PyFloat → PyFloat
  | finite a, finite b => finite (a.add b)
  | finite _, inf => inf
  | finite _, negInf => negInf
  | finite _, nan => nan
  | inf, finite _ => inf
  | inf, inf => inf
  | inf, negInf => nan
  | inf, nan => nan
  | negInf, finite _ => negInf
  | negInf, inf => nan
  | negInf, negInf => negInf
  | negInf, nan => nan
  | nan, _ => nan

/-- Python float multiplication (`x * y`), extended to the special
values.  Finite products are exact rationals: the saturation of an
overflowing finite double product to `inf` (`1e308 * 100 == inf` in
Python) is not modelled, and no theorem below asserts finiteness of a
finite-operand result. -/
def mul : PyFloat → PyFloat → PyFloat
  | finite a, finite b => finite (a.mul b)
  | finite a, inf => if 0 < a.num then inf else if a.num < 0 then negInf else nan
  | finite a, negInf => if 0 < a.num then negInf else if a.num < 0 then inf else nan
  | finite _, nan => nan
  | inf, finite b => if 0 < b.num then inf else if b.num < 0 then negInf else nan
  | inf, inf => inf
  | inf, negInf => negInf
  | inf, nan => nan
  | negInf, finite b => if 0 < b.num then negInf else if b.num < 0 then inf else nan
  | negInf, inf => negInf
  | negInf, negInf => inf
  | negInf, nan => nan
  | nan, _ => nan

/-- Python float division (`x / y`).  Any division by (float) zero
raises `ZeroDivisionError`, including `inf / 0.0` and `nan / 0.0`.
Finite quotients are exact rationals: the saturation of an overflowing
finite double quotient to `inf` (`1e308 / 1e-8 == inf` in Python) is
not modelled, and no theorem below asserts finiteness of a
finite-operand result. -/
def div (x y : PyFloat) : Except PyError PyFloat :=
  match y with
  | finite b =>
      if b.num = 0 then .error .zeroDivisionError
      else
        match x with
        | finite a => .ok (finite (a.div b))
        | inf => .ok (if 0 < b.num then inf else negInf)
        | negInf => .ok (if 0 < b.num then negInf else inf)
        | nan => .ok nan
  | inf =>
      match x with
      | finite _ => .ok (finite Q.zero)
      | _ => .ok nan
  | negInf =>
      match x with
      | finite _ => .ok (finite Q.zero)
      | _ => .ok nan
  | nan => .ok nan

/-- Python comparison `x > 0` (false on `nan`). -/
def gt0 : PyFloat → Bool
  | finite q => 0 < q.num
  | inf => true
  | negInf => false
  | nan => false

/-- Python comparison `x < 0` (false on `nan`). -/
def lt0 : PyFloat → Bool
  | finite q => q.num < 0
  | inf => false
  | negInf => true
  | nan => false

/-- Python comparison `x == 0` (false on `nan`). -/
def eq0 : PyFloat → Bool
  | finite q => q.num = 0
  | inf => false
  | negInf => false
  | nan => false

/-- `x` is one of the non-finite values `inf`, `-inf`, `nan`. -/
def isSpecial : PyFloat → Bool
  | finite _ => false
  | _ => true

/-- Python `round(x, d)`: rounds finite values to `d` decimal places
and returns the special values unchanged. -/
def pyRound (x : PyFloat) (d : ℕ) : PyFloat :=
  match x with
  | finite q => finite (roundQ q d)
  | s => s

end PyFloat

/-- Model of a Python value as it occurs in the position dictionaries:
`None`, a bool, an arbitrary-precision int, a float, a string, or an
unconvertible container (list/dict, whose contents the embedded code
never inspects). -/
inductive PyVal where
  | none
  | bool (b : Bool)
  | int (n : ℤ)
  | float (x : PyFloat)
  | str (s : String)
  | listv
  | dictv
deriving DecidableEq, Repr

/-- Characters accepted as whitespace by `float(str)` and `str.strip()`
(ASCII whitespace; exotic Unicode spaces are not modelled). -/
def isPySpace (c : Char) : Bool :=
  c = ' ' || c = '\t' || c = '\n' || c = '\r' || c = '\x0b' || c = '\x0c'

/-- Python `str.strip()` on a character list. -/
def pyStrip (cs : List Char) : List Char :=
  ((cs.dropWhile isPySpace).reverse.dropWhile isPySpace).reverse

/-- Numeric value of a digit string (most significant first). -/
def digitsVal (cs : List Char) : ℕ :=
  cs.foldl (fun acc c => acc * 10 + (c.toNat - '0'.toNat)) 0

/-- Split a character list at the first `e`/`E`, if any
(mantissa/exponent split of a float literal). -/
def splitExp : List Char → (List Char × Option (List Char))
  | [] => ([], Option.none)
  | c :: cs =>
      if c = 'e' || c = 'E' then ([], Option.some cs)
      else
        let (m, e) := splitExp cs
        (c :: m, e)

/-- Parse an unsigned decimal mantissa `digits[.digits]` (at least one
digit overall, as `float(str)` requires). -/
def parseMantissa (cs : List Char) : Option Q :=
  let ip := cs.takeWhile Char.isDigit
  let rest := cs.dropWhile Char.isDigit
  match rest with
  | [] => if ip = [] then Option.none else Option.some (Q.ofInt (digitsVal ip))
  | '.' :: fp' =>
      let fp := fp'.takeWhile Char.isDigit
      let rest2 := fp'.dropWhile Char.isDigit
      if rest2 ≠ [] then Option.none
      else if ip = [] ∧ fp = [] then Option.none
      else Option.some (Q.norm ((digitsVal ip : ℤ) * ((10 ^ fp.length : ℕ) : ℤ) + (digitsVal fp : ℤ)) (10 ^ fp.length))
  | _ => Option.none

/-- Parse a signed exponent (nonempty digit string). -/
def parseExpPart (cs : List Char) : Option ℤ :=
  match cs with
  | '+' :: ds =>
      if ds ≠ [] ∧ ds.all Char.isDigit then Option.some (digitsVal ds : ℤ) else Option.none
  | '-' :: ds =>
      if ds ≠ [] ∧ ds.all Char.isDigit then Option.some (-(digitsVal ds : ℤ)) else Option.none
  | ds =>
      if ds ≠ [] ∧ ds.all Char.isDigit then Option.some (digitsVal ds : ℤ) else Option.none

/-- Apply a power-of-ten exponent to an exact value. -/
def applyExp (q : Q) (ex : ℤ) : Q :=
  if 0 ≤ ex then Q.norm (q.num * ((10 ^ ex.toNat : ℕ) : ℤ)) q.den
  else Q.norm q.num (q.den * 10 ^ (-ex).toNat)

/-- The overflow threshold of an IEEE double: values at or beyond
`2 ^ 1024` do not fit (the exact boundary involves the rounding at
`2 ^ 1024 - 2 ^ 970`, which this model approximates by `2 ^ 1024`). -/
def doubleLimitZ : ℤ := ((2 ^ 1024 : ℕ) : ℤ)

/-- Clamp an exact parsed value into a Python float: string conversion
never raises on overflow, it saturates to `inf` / `-inf`. -/
def clampToDouble (q : Q) : PyFloat :=
  if doubleLimitZ * (q.den : ℤ) ≤ q.num then .inf
  else if q.num ≤ -doubleLimitZ * (q.den : ℤ) then .negInf
  else .finite q

/-- Negate an exact value. -/
def qNegIf (neg : Bool) (q : Q) : Q := if neg then q.neg else q

/-- Parse the body of a float literal after the sign: `inf`,
`infinity`, `nan` (case-insensitively) or a decimal number with an
optional exponent. -/
def parseFloatBody (cs : List Char) (neg : Bool) : Option PyFloat :=
  let lower := cs.map Char.toLower
  if lower = ['i', 'n', 'f'] ∨ lower = ['i', 'n', 'f', 'i', 'n', 'i', 't', 'y'] then
    Option.some (if neg then .negInf else .inf)
  else if lower = ['n', 'a', 'n'] then
    Option.some .nan
  else
    let (m, e) := splitExp cs
    match parseMantissa m with
    | Option.none => Option.none
    | Option.some q =>
        match e with
        | Option.none => Option.some (clampToDouble (qNegIf neg q))
        | Option.some ecs =>
            match parseExpPart ecs with
            | Option.none => Option.none
            | Option.some ex => Option.some (clampToDouble (qNegIf neg (applyExp q ex)))

/-- Model of Python `float(str)`: strip whitespace, optional sign, then
a float literal (underscore digit separators are not modelled). -/
def parseFloatChars (cs : List Char) : Option PyFloat :=
  match pyStrip cs with
  | '+' :: rest => parseFloatBody rest false
  | '-' :: rest => parseFloatBody rest true
  | rest => parseFloatBody rest false

/-- Model of the Python builtin `float(value)` on the value universe:
bools and ints convert numerically (an int outside double range raises
`OverflowError`), floats pass through, strings are parsed (raising
`ValueError` on failure), everything else raises `TypeError`. -/
def pyFloatConv : PyVal → Except PyError PyFloat
  | .none => .error .typeError
  | .bool b => .ok (.finite (Q.ofInt (if b then 1 else 0)))
  | .int n => if n.natAbs < 2 ^ 1024 then .ok (.finite (Q.ofInt n)) else .error .overflowError
  | .float x => .ok x
  | .str s =>
      match parseFloatChars s.data with
      | Option.some x => .ok x
      | Option.none => .error .valueError
  | .listv => .error .typeError
  | .dictv => .error .typeError

/-- `safe_float(value, default)` from `bingx_to_sheets.py`: returns the
default on `None`, otherwise calls `float(value)` and catches only
`TypeError` and `ValueError`; any other exception propagates. -/
def safe_float (value : PyVal) (default : PyFloat) : Except PyError PyFloat :=
  if value = PyVal.none then .ok default
  else
    match pyFloatConv value with
    | .ok x => .ok x
    | .error .typeError => .ok default
    | .error .valueError => .ok default
    | .error e => .error e

/-- `safe_round(value, decimals, default)` from `bingx_to_sheets.py`:
`round(safe_float(value, default), decimals)`. -/
def safe_round (value : PyVal) (decimals : ℕ) (default : PyFloat) :
    Except PyError PyFloat :=
  (safe_float value default).map (fun n => n.pyRound decimals)

/-- A position dictionary as the exchange client returns it: each key
the embedded code reads is either absent (`Option.none`, making
`pos.get(key, dflt)` return the call-site default) or mapped to an
arbitrary Python value. -/
structure Position where
  symbol : Option PyVal
  side : Option PyVal
  entryPrice : Option PyVal
  markPrice : Option PyVal
  liquidationPrice : Option PyVal
  contracts : Option PyVal
  notional : Option PyVal
  unrealizedPnl : Option PyVal
  realizedPnl : Option PyVal
  leverage : Option PyVal
  marginMode : Option PyVal
  initialMargin : Option PyVal
  marginRatio : Option PyVal
  fundingRate : Option PyVal
  percentage : Option PyVal
deriving DecidableEq, Repr

/-- The all-absent dictionary (useful base for concrete instances). -/
def Position.empty : Position :=
  ⟨Option.none, Option.none, Option.none, Option.none, Option.none, Option.none,
   Option.none, Option.none, Option.none, Option.none, Option.none, Option.none,
   Option.none, Option.none, Option.none⟩

/-- Python `pos.get(key, default)`. -/
def pyGet (field : Option PyVal) (default : PyVal) : PyVal := field.getD default

/-- The header row of the "All Positions" sheet
(`write_all_positions_to_sheet`, lines 412-417). -/
def allPositionsHeaders : List PyVal :=
  [.str "Timestamp", .str "Symbol", .str "Side", .str "Status", .str "Entry Price",
   .str "Mark Price", .str "Contracts", .str "Notional Value", .str "Unrealized P&L",
   .str "Realized P&L", .str "Total P&L", .str "P&L %", .str "Leverage",
   .str "Margin Mode", .str "Initial Margin", .str "Liquidation Price",
   .str "Funding Rate", .str "Margin Ratio", .str "Percentage"]

/-- The sentinel row appended when the position list is empty
(`write_all_positions_to_sheet`, line 424). -/
def noPositionsRow (timestamp : String) : List PyVal :=
  [.str timestamp, .str "NO POSITIONS", .str "N/A", .str "N/A", .str "N/A", .str "N/A",
   .str "N/A", .str "N/A", .str "N/A", .str "N/A", .str "N/A", .str "N/A", .str "N/A",
   .str "N/A", .str "N/A", .str "N/A", .str "N/A", .str "N/A", .str "N/A"]

/-- One data row of the "All Positions" sheet
(`write_all_positions_to_sheet`, lines 428-469), in source evaluation
order.  `safe_round` applied to an already-converted float is modelled
directly as `pyRound`, since `safe_float` is the identity on floats.
Python's bare `0` in the `pnl_pct` guard is identified with float 0. -/
def positionRow (timestamp : String) (pos : Position) : Except PyError (List PyVal) := do
  let contracts ← safe_float (pyGet pos.contracts (.int 0)) .zero
  let status : String := if contracts.gt0 then "ACTIVE" else "CLOSED"
  let unrealized ← safe_float (pyGet pos.unrealizedPnl (.int 0)) .zero
  let realized ← safe_float (pyGet pos.realizedPnl (.int 0)) .zero
  let total_pnl := unrealized.add realized
  let notional ← safe_float (pyGet pos.notional (.int 0)) .zero
  let pnl_pct ←
    if notional.gt0 then (total_pnl.div notional).map (fun r => r.mul (.finite (Q.ofInt 100)))
    else pure PyFloat.zero
  let entry_price ← safe_float (pyGet pos.entryPrice (.int 0)) .zero
  let mark_price ← safe_float (pyGet pos.markPrice (.int 0)) .zero
  let liquidation_price ← safe_float (pyGet pos.liquidationPrice (.int 0)) .zero
  let initial_margin ← safe_float (pyGet pos.initialMargin (.int 0)) .zero
  let margin_ratio ← safe_float (pyGet pos.marginRatio (.int 0)) .zero
  let percentage ← safe_float (pyGet pos.percentage (.int 0)) .zero
  return [.str timestamp,
          pyGet pos.symbol (.str ""),
          pyGet pos.side (.str ""),
          .str status,
          .float (entry_price.pyRound 8),
          .float (mark_price.pyRound 8),
          .float (contracts.pyRound 8),
          .float (notional.pyRound 4),
          .float (unrealized.pyRound 8),
          .float (realized.pyRound 8),
          .float (total_pnl.pyRound 8),
          .float (pnl_pct.pyRound 2),
          pyGet pos.leverage (.str ""),
          pyGet pos.marginMode (.str ""),
          .float (initial_margin.pyRound 4),
          .float (liquidation_price.pyRound 2),
          pyGet pos.fundingRate (.str ""),
          .float (margin_ratio.pyRound 4),
          .float (percentage.pyRound 2)]

/-- Effectful map mirroring a sequential Python loop that may raise:
elements are processed left to right, stopping at the first
exception. -/
def mapE {α β : Type} (f : α → Except PyError β) : List α → Except PyError (List β)
  | [] => .ok []
  | x :: xs => do
      let y ← f x
      let rest ← mapE f xs
      return y :: rest

/-- The grid written by `write_all_positions_to_sheet` (lines 419-469):
the header row, then either the sentinel row (empty position list) or
one data row per position. -/
def write_all_positions_rows (positions : List Position) (timestamp : String) :
    Except PyError (List (List PyVal)) :=
  if positions.isEmpty then .ok [allPositionsHeaders, noPositionsRow timestamp]
  else do
    let dataRows ← mapE (positionRow timestamp) positions
    return allPositionsHeaders :: dataRows

/-- The P&L quantities derived for one active position in
`format_all_positions_for_analysis` (lines 204-208): total P&L,
normalized notional, and the percentage with its division-by-zero
guard. -/
def analysisPnl (pos : Position) : Except PyError (PyFloat × PyFloat × PyFloat) := do
  let unrealized ← safe_float (pyGet pos.unrealizedPnl (.int 0)) .zero
  let realized ← safe_float (pyGet pos.realizedPnl (.int 0)) .zero
  let total_pnl := unrealized.add realized
  let notional ← safe_float (pyGet pos.notional (.int 0)) .zero
  let pnl_pct ←
    if notional.gt0 then (total_pnl.div notional).map (fun r => r.mul (.finite (Q.ofInt 100)))
    else pure PyFloat.zero
  return (total_pnl, notional, pnl_pct)

/-- Effectful filter mirroring a Python list comprehension whose
predicate may raise. -/
def filterE {α : Type} (f : α → Except PyError Bool) : List α → Except PyError (List α)
  | [] => .ok []
  | x :: xs => do
      let b ← f x
      let rest ← filterE f xs
      return if b then x :: rest else rest

/-- The normalized contract size of a position
(`safe_float(p.get('contracts', 0))`). -/
def contractsOf (p : Position) : Except PyError PyFloat :=
  safe_float (pyGet p.contracts (.int 0)) .zero

/-- The ACTIVE group of `format_all_positions_for_analysis` (line 198):
positions with normalized contract size `> 0`. -/
def activePositions (positions : List Position) : Except PyError (List Position) :=
  filterE (fun p => (contractsOf p).map (fun c => c.gt0)) positions

/-- The CLOSED group of `format_all_positions_for_analysis` (line 199):
positions with normalized contract size `== 0`. -/
def inactivePositions (positions : List Position) : Except PyError (List Position) :=
  filterE (fun p => (contractsOf p).map (fun c => c.eq0)) positions

/-- `get_positions` (lines 78-99): the whole body runs under
`try/except Exception`, returning `[]` on any failure.  The upstream
`fetch_positions` call is the parameter; the active-count list
comprehension inside the `try` block is also modelled because an
exception it raises is equally caught. -/
def get_positions (fetchResult : Except PyError (List Position)) : List Position :=
  match fetchResult with
  | .error _ => []
  | .ok positions =>
      match activePositions positions with
      | .error _ => []
      | .ok _ => positions

/-- State of the spreadsheet visible to `ensure_sheet_exists`: the
titles of its tabs. -/
structure SpreadsheetState where
  titles : List String
deriving DecidableEq, Repr

/-- `ensure_sheet_exists` (lines 377-401): query the tab titles; if the
name is present return with no mutation, otherwise issue exactly one
`addSheet` request (fixed 1000x20 default size, not part of the
modelled state).  The second component counts create requests
issued. -/
def ensure_sheet_exists (st : SpreadsheetState) (sheet_name : String) :
    SpreadsheetState × ℕ :=
  if sheet_name ∈ st.titles then (st, 0)
  else ({ titles := st.titles ++ [sheet_name] }, 1)

/-- Outcome of the `requests.post` call in
`send_to_perplexity_for_analysis`: a transport-level failure
(`requests.exceptions.RequestException`) or an HTTP response carrying a
status code and the result of extracting
`json()['choices'][0]['message']['content']` (`Except.error` holds the
stringified exception when the body does not parse). -/
inductive HttpOutcome where
  | networkError
  | response (status : ℕ) (parse : Except String String)
deriving DecidableEq, Repr

/-- The sentinel returned when the request (or `raise_for_status`)
fails (line 598). -/
def perplexitySentinel : String := "Error: Could not retrieve analysis from Perplexity"

/-- `send_to_perplexity_for_analysis` (lines 540-601):
`raise_for_status` raises `HTTPError` (a `RequestException`) exactly
for 4xx/5xx statuses; body-extraction failures fall to the generic
handler returning `"Error: " + str(e)`. -/
def send_to_perplexity_for_analysis (outcome : HttpOutcome) : String :=
  match outcome with
  | .networkError => perplexitySentinel
  | .response status parse =>
      if 400 ≤ status ∧ status < 600 then perplexitySentinel
      else
        match parse with
        | .ok content => content
        | .error msg => "Error: " ++ msg

/-- Prepend a character to the first piece of a split (creating a
piece when none exists). -/
def consHead (c : Char) : List (List Char) → List (List Char)
  | [] => [[c]]
  | l :: ls => (c :: l) :: ls

/-- Python `s.split('\n')` on a character list. -/
def splitLines : List Char → List (List Char)
  | [] => [[]]
  | c :: cs => if c = '\n' then [] :: splitLines cs else consHead c (splitLines cs)

/-- Python `s.split('\n\n')` on a character list (non-overlapping,
left to right). -/
def splitParas : List Char → List (List Char)
  | [] => [[]]
  | [c] => [[c]]
  | c1 :: c2 :: cs =>
      if c1 = '\n' && c2 = '\n' then [] :: splitParas cs
      else consHead c1 (splitParas (c2 :: cs))

/-- The narrative-derived rows of `write_analysis_to_sheet`
(lines 500-515): split into paragraphs on blank-line separators, skip
whitespace-only paragraphs, then append one single-cell row per
non-blank line, holding the stripped line. -/
def write_analysis_rows (analysis : List Char) : List (List (List Char)) :=
  ((splitParas analysis).filter (fun p => !(pyStrip p).isEmpty)).flatMap
    (fun p => ((splitLines p).filter (fun l => !(pyStrip l).isEmpty)).map
      (fun l => [pyStrip l]))

/-- The full grid written by `write_analysis_to_sheet` (lines 503-515):
a fixed four-row preamble (timestamp, analysis date, spacer, section
title) followed by the narrative-derived rows. -/
def write_analysis_grid (analysis : String) (timestamp dateStr : String) :
    List (List String) :=
  [["Timestamp", timestamp], ["Analysis Date", dateStr], ["", ""], ["Analysis Results", ""]]
  ++ (write_analysis_rows analysis.data).map (fun r => r.map (fun c => String.mk c))

/-! ## Helper lemmas -/

/-- `pyFloatConv` raises only `TypeError`, `ValueError` or
`OverflowError`. -/
theorem pyFloatConv_error_cases {v : PyVal} {e : PyError}
    (h : pyFloatConv v = .error e) :
    e = .typeError ∨ e = .valueError ∨ e = .overflowError := by
  cases v <;> simp only [pyFloatConv] at h
  case none => exact Or.inl (Except.error.inj h).symm
  case bool b => exact absurd h (by simp)
  case int n =>
    split at h
    · exact absurd h (by simp)
    · exact Or.inr (Or.inr (Except.error.inj h).symm)
  case float x => exact absurd h (by simp)
  case str s =>
    cases hp : parseFloatChars s.data <;> rw [hp] at h
    · exact Or.inr (Or.inl (Except.error.inj h).symm)
    · exact absurd h (by simp)
  case listv => exact Or.inl (Except.error.inj h).symm
  case dictv => exact Or.inl (Except.error.inj h).symm

/-- The only exception `safe_float` can propagate is `OverflowError`. -/
theorem safe_float_error {v : PyVal} {d : PyFloat} {e : PyError}
    (h : safe_float v d = .error e) : e = .overflowError := by
  unfold safe_float at h
  split at h
  · exact absurd h (by simp)
  · cases hc : pyFloatConv v <;> rw [hc] at h
    case ok x => exact absurd h (by simp)
    case error e' =>
      rcases pyFloatConv_error_cases hc with rfl | rfl | rfl
      · exact absurd h (by simp)
      · exact absurd h (by simp)
      · exact (Except.error.inj h).symm

/-- `safe_float` propagates a successful conversion unchanged. -/
theorem safe_float_ok_conv {v : PyVal} {d x : PyFloat}
    (h : pyFloatConv v = .ok x) : safe_float v d = .ok x := by
  have hv : v ≠ PyVal.none := by
    intro hv; rw [hv] at h; simp [pyFloatConv] at h
  unfold safe_float
  rw [if_neg hv, h]

/-- Division by a float that compares `> 0` never raises. -/
theorem PyFloat.div_ok_of_gt0 (x b : PyFloat) (h : b.gt0 = true) :
    ∃ r, x.div b = .ok r := by
  cases b with
  | finite q =>
      have hq : ¬ q.num = 0 := by
        simp [PyFloat.gt0] at h; omega
      cases x <;> simp [PyFloat.div, hq]
  | inf => cases x <;> simp [PyFloat.div]
  | negInf => simp [PyFloat.gt0] at h
  | nan => simp [PyFloat.gt0] at h

/-- A float comparing `< 0` compares neither `> 0` nor `== 0`. -/
theorem PyFloat.lt0_excludes {c : PyFloat} (h : c.lt0 = true) :
    c.gt0 = false ∧ c.eq0 = false := by
  cases c <;> simp_all [PyFloat.lt0, PyFloat.gt0, PyFloat.eq0] <;> omega

/-- Membership in a successful `filterE` result implies membership in
the input and a positive predicate. -/
theorem filterE_mem {α : Type} (f : α → Except PyError Bool) :
    ∀ (l r : List α), filterE f l = .ok r → ∀ a ∈ r, a ∈ l ∧ f a = .ok true := by
  intro l
  induction l with
  | nil =>
      intro r h a ha
      simp [filterE] at h
      subst h
      simp at ha
  | cons x xs ih =>
      intro r h a ha
      simp only [filterE, bind, Except.bind] at h
      cases hf : f x <;> rw [hf] at h
      case error e => exact absurd h (by simp)
      case ok b =>
        cases hr : filterE f xs <;> rw [hr] at h
        case error e => exact absurd h (by simp)
        case ok rest =>
          simp only [pure, Except.pure, Except.ok.injEq] at h
          subst h
          by_cases hb : b = true
          · subst hb
            simp only [if_true] at ha
            rcases List.mem_cons.mp ha with rfl | hmem
            · exact ⟨List.mem_cons_self _ _, hf⟩
            · have := ih rest hr a hmem
              exact ⟨List.mem_cons_of_mem _ this.1, this.2⟩
          · have hb' : b = false := by cases b <;> simp_all
            subst hb'
            rw [if_neg (by simp)] at ha
            have := ih rest hr a ha
            exact ⟨List.mem_cons_of_mem _ this.1, this.2⟩

/-- A successful `mapE` preserves length. -/
theorem mapE_length {α β : Type} (f : α → Except PyError β) :
    ∀ (l : List α) (r : List β), mapE f l = .ok r → r.length = l.length := by
  intro l
  induction l with
  | nil =>
      intro r h
      simp [mapE] at h
      subst h
      rfl
  | cons x xs ih =>
      intro r h
      simp only [mapE, bind, Except.bind] at h
      cases hf : f x <;> rw [hf] at h
      case error e => exact absurd h (by simp)
      case ok y =>
        cases hr : mapE f xs <;> rw [hr] at h
        case error e => exact absurd h (by simp)
        case ok rest =>
          simp only [pure, Except.pure, Except.ok.injEq] at h
          subst h
          simp [ih rest hr]

/-! ## Claim theorems -/

/-- C4 (confirmed): for an empty position list, the grid built for the
"All Positions" sheet is exactly the fixed header row followed by the
single `"NO POSITIONS"`/`"N/A"` sentinel row, 2 rows in total, with the
sentinel's column count equal to the header's 19 columns. -/
theorem c4_empty_positions_grid (timestamp : String) :
    write_all_positions_rows [] timestamp
      = .ok [allPositionsHeaders, noPositionsRow timestamp]
    ∧ [allPositionsHeaders, noPositionsRow timestamp].length = 2
    ∧ (noPositionsRow timestamp).length = allPositionsHeaders.length
    ∧ allPositionsHeaders.length = 19 :=
  ⟨rfl, rfl, rfl, rfl⟩

/-- C6 (confirmed): `get_positions` wraps the upstream fetch in a
catch-all handler; when the fetch raises it returns the empty list, it
never re-raises (it is a total function into position lists), and on a
successful fetch it returns the fetched list unless the in-`try`
active-count computation itself raises, in which case it again returns
the empty list. -/
theorem c6_get_positions_catches (e : PyError)
    (r : Except PyError (List Position)) :
    get_positions (.error e) = []
    ∧ (get_positions r = [] ∨ ∃ ps, r = .ok ps ∧ get_positions r = ps) := by
  constructor
  · rfl
  · cases r with
    | error e' => left; rfl
    | ok ps =>
        cases h : activePositions ps with
        | error e' => left; simp [get_positions, h]
        | ok l => right; exact ⟨ps, rfl, by simp [get_positions, h]⟩

/-- C7 (confirmed): `ensure_sheet_exists` queries the existing tab
titles and issues a create request only when the name is absent; the
two calls together issue at most one create request, and the second
call leaves the spreadsheet state unchanged and issues no request. -/
theorem c7_ensure_sheet_idempotent (st : SpreadsheetState) (name : String) :
    (ensure_sheet_exists (ensure_sheet_exists st name).1 name).1
        = (ensure_sheet_exists st name).1
    ∧ (ensure_sheet_exists (ensure_sheet_exists st name).1 name).2 = 0
    ∧ (ensure_sheet_exists st name).2
        + (ensure_sheet_exists (ensure_sheet_exists st name).1 name).2 ≤ 1
    ∧ (name ∈ st.titles → ensure_sheet_exists st name = (st, 0)) := by
  by_cases h : name ∈ st.titles
  · simp [ensure_sheet_exists, h]
  · simp [ensure_sheet_exists, h]

/-- C2 counterexample: `safe_float` is not total over every input —
`float()` on an integer beyond double range raises `OverflowError`,
which is not in the caught `(TypeError, ValueError)` tuple, so the
exception escapes instead of the default being returned. -/
theorem c2_counterexample :
    safe_float (.int (10 ^ 400)) .zero = .error .overflowError := by decide

/-- C2 amended: `safe_float` returns the default when the value is
`None` or when the conversion raises `TypeError` or `ValueError`,
returns the converted float otherwise, and the only exception that can
escape is the `OverflowError` raised by converting an integer outside
double range; on every other input it is total. -/
theorem c2_safe_float_total_except_overflow (v : PyVal) (d : PyFloat) :
    (v = .none → safe_float v d = .ok d)
    ∧ (∀ x, pyFloatConv v = .ok x → safe_float v d = .ok x)
    ∧ (v ≠ .none → pyFloatConv v = .error .typeError → safe_float v d = .ok d)
    ∧ (pyFloatConv v = .error .valueError → safe_float v d = .ok d)
    ∧ (∀ e, safe_float v d = .error e →
        e = .overflowError ∧ ∃ n : ℤ, v = .int n ∧ (2 ^ 1024 : ℕ) ≤ n.natAbs) := by
  refine ⟨fun hv => by simp [safe_float, hv], fun x hx => safe_float_ok_conv hx, ?_, ?_, ?_⟩
  · intro hv hc
    simp [safe_float, hv, hc]
  · intro hc
    have hv : v ≠ PyVal.none := by
      intro hv; rw [hv] at hc; simp [pyFloatConv] at hc
    simp [safe_float, hv, hc]
  · intro e h
    refine ⟨safe_float_error h, ?_⟩
    have hv : v ≠ PyVal.none := by
      intro hv; simp [safe_float, hv] at h
    rw [safe_float, if_neg hv] at h
    cases hc : pyFloatConv v with
    | ok x => rw [hc] at h; exact absurd h (by simp)
    | error e' =>
      rw [hc] at h
      rcases pyFloatConv_error_cases hc with rfl | rfl | rfl
      · exact absurd h (by simp)
      · exact absurd h (by simp)
      · cases v with
        | int n =>
            refine ⟨n, rfl, ?_⟩
            by_contra hlt
            simp only [pyFloatConv] at hc
            rw [if_pos (by omega)] at hc
            exact absurd hc (by simp)
        | none => simp [pyFloatConv] at hc
        | bool b => simp [pyFloatConv] at hc
        | float x => simp [pyFloatConv] at hc
        | str s =>
            simp only [pyFloatConv] at hc
            cases hp : parseFloatChars s.data <;> rw [hp] at hc <;> simp at hc
        | listv => simp [pyFloatConv] at hc
        | dictv => simp [pyFloatConv] at hc

/-- C2 witness: a parseable string is converted, not defaulted. -/
theorem c2_witness : safe_float (.str "7") .zero = .ok (.finite (Q.ofInt 7)) :=
  (c2_safe_float_total_except_overflow (.str "7") .zero).2.1 _ (by decide)

/-- C9 (confirmed): `safe_float` substitutes the default only when the
value is `None` or `float()` raises `TypeError`/`ValueError` (or the
converted value happens to equal the default); any value Python parses
as a float — including the strings `"inf"`, `"-inf"`, `"nan"` and
booleans — is returned as-is, so the normalizer does not guarantee a
finite result. -/
theorem c9_normalizer_passthrough (d : PyFloat) :
    safe_float (.str "inf") d = .ok .inf
    ∧ safe_float (.str "-inf") d = .ok .negInf
    ∧ safe_float (.str "nan") d = .ok .nan
    ∧ safe_float (.bool true) d = .ok (.finite (Q.ofInt 1))
    ∧ (∀ v x, pyFloatConv v = .ok x → safe_float v d = .ok x)
    ∧ (∀ v, safe_float v d = .ok d →
        v = .none ∨ pyFloatConv v = .error .typeError
          ∨ pyFloatConv v = .error .valueError ∨ pyFloatConv v = .ok d) := by
  refine ⟨safe_float_ok_conv (by decide), safe_float_ok_conv (by decide),
          safe_float_ok_conv (by decide), safe_float_ok_conv (by decide),
          fun v x hx => safe_float_ok_conv hx, ?_⟩
  intro v h
  by_cases hv : v = PyVal.none
  · exact Or.inl hv
  · rw [safe_float, if_neg hv] at h
    cases hc : pyFloatConv v with
    | ok x =>
      rw [hc] at h
      have hx : x = d := by simpa using h
      right; right; right
      rw [hx]
    | error e' =>
      rw [hc] at h
      rcases pyFloatConv_error_cases hc with rfl | rfl | rfl
      · exact Or.inr (Or.inl rfl)
      · exact Or.inr (Or.inr (Or.inl rfl))
      · exact absurd h (by simp)

/-- C9 witness: `safe_float("inf")` is `inf` even with a finite
default, exercising the pass-through conjunct at a concrete input. -/
theorem c9_witness : safe_float (.str "inf") (.finite (Q.ofInt 3)) = .ok .inf :=
  ((c9_normalizer_passthrough (.finite (Q.ofInt 3))).2.2.2.2.1) (.str "inf") .inf (by decide)

/-- C10 (confirmed): the analysis summary's ACTIVE group keeps exactly
the positions with normalized contract size `> 0` and its CLOSED group
those with size `== 0`; a position whose normalized contract size is
negative lands in neither group and is silently omitted. -/
theorem c10_negative_contracts_omitted (positions : List Position) (p : Position)
    (c : PyFloat) (act inact : List Position)
    (hp : p ∈ positions) (hc : contractsOf p = .ok c) (hneg : c.lt0 = true)
    (hact : activePositions positions = .ok act)
    (hinact : inactivePositions positions = .ok inact) :
    p ∉ act ∧ p ∉ inact := by
  obtain ⟨hg, he⟩ := PyFloat.lt0_excludes hneg
  constructor
  · intro hmem
    obtain ⟨-, hf⟩ := filterE_mem _ _ _ hact p hmem
    have hf2 : (contractsOf p).map (fun x => x.gt0) = .ok true := hf
    rw [hc] at hf2
    simp only [Except.map] at hf2
    rw [hg] at hf2
    exact absurd (Except.ok.inj hf2) (by simp)
  · intro hmem
    obtain ⟨-, hf⟩ := filterE_mem _ _ _ hinact p hmem
    have hf2 : (contractsOf p).map (fun x => x.eq0) = .ok true := hf
    rw [hc] at hf2
    simp only [Except.map] at hf2
    rw [he] at hf2
    exact absurd (Except.ok.inj hf2) (by simp)

/-- A position with contract size `-1`, exercising the omitted case. -/
def pNegContracts : Position :=
  { Position.empty with contracts := Option.some (.float (.finite (Q.ofInt (-1)))) }

/-- C10 witness: with the single-position list `[pNegContracts]` both
groups are empty and the position is in neither. -/
theorem c10_witness :
    pNegContracts ∉ ([] : List Position) ∧ pNegContracts ∉ ([] : List Position) :=
  c10_negative_contracts_omitted [pNegContracts] pNegContracts
    (.finite (Q.ofInt (-1))) [] []
    (by decide) (by decide) (by decide) (by decide) (by decide)

theorem bindE_ok {α β : Type} (x : α) (f : α → Except PyError β) :
    (Except.ok x >>= f) = f x := rfl

theorem bindE_error {α β : Type} (e : PyError) (f : α → Except PyError β) :
    ((Except.error e : Except PyError α) >>= f) = Except.error e := rfl

theorem mapE_ok {α β : Type} (x : α) (f : α → β) :
    (Except.map f (Except.ok x) : Except PyError β) = Except.ok (f x) := rfl

theorem pureE {α : Type} (x : α) :
    (pure x : Except PyError α) = Except.ok x := rfl

/-- Successful runs of `analysisPnl` decompose into the normalized
fields and the guarded percentage. -/
theorem analysisPnl_ok {pos : Position} {total notional pct : PyFloat}
    (h : analysisPnl pos = .ok (total, notional, pct)) :
    ∃ u r, safe_float (pyGet pos.unrealizedPnl (.int 0)) .zero = .ok u
      ∧ safe_float (pyGet pos.realizedPnl (.int 0)) .zero = .ok r
      ∧ total = u.add r
      ∧ safe_float (pyGet pos.notional (.int 0)) .zero = .ok notional
      ∧ (notional.gt0 = true →
          ∃ q, total.div notional = .ok q ∧ pct = q.mul (.finite (Q.ofInt 100)))
      ∧ (notional.gt0 = false → pct = .zero) := by
  unfold analysisPnl at h
  cases h1 : safe_float (pyGet pos.unrealizedPnl (.int 0)) .zero with
  | error e1 => rw [h1, bindE_error] at h; exact absurd h (by simp)
  | ok u =>
  rw [h1, bindE_ok] at h
  cases h2 : safe_float (pyGet pos.realizedPnl (.int 0)) .zero with
  | error e2 => rw [h2, bindE_error] at h; exact absurd h (by simp)
  | ok r =>
  rw [h2, bindE_ok] at h
  cases h3 : safe_float (pyGet pos.notional (.int 0)) .zero with
  | error e3 => rw [h3, bindE_error] at h; exact absurd h (by simp)
  | ok n =>
  rw [h3, bindE_ok] at h
  refine ⟨u, r, rfl, rfl, ?_⟩
  by_cases hg : n.gt0 = true
  · rw [if_pos hg] at h
    obtain ⟨q, hq⟩ := PyFloat.div_ok_of_gt0 (u.add r) n hg
    rw [hq, mapE_ok, bindE_ok] at h
    simp only [pureE, Except.ok.injEq, Prod.mk.injEq] at h
    obtain ⟨ht, hn, hp⟩ := h
    subst ht; subst hn; subst hp
    exact ⟨rfl, rfl, fun _ => ⟨q, hq, rfl⟩,
           fun hf => by rw [hg] at hf; exact absurd hf (by simp)⟩
  · rw [if_neg hg, pureE, bindE_ok] at h
    simp only [pureE, Except.ok.injEq, Prod.mk.injEq] at h
    obtain ⟨ht, hn, hp⟩ := h
    subst ht; subst hn; subst hp
    exact ⟨rfl, rfl, fun hg' => absurd hg' hg, fun _ => rfl⟩

/-- `analysisPnl` can only raise `OverflowError` (in particular it
never raises `ZeroDivisionError`: the division is guarded). -/
theorem analysisPnl_error {pos : Position} {e : PyError}
    (h : analysisPnl pos = .error e) : e = .overflowError := by
  unfold analysisPnl at h
  cases h1 : safe_float (pyGet pos.unrealizedPnl (.int 0)) .zero with
  | error e1 =>
      rw [h1, bindE_error] at h
      rw [← Except.error.inj h]
      exact safe_float_error h1
  | ok u =>
  rw [h1, bindE_ok] at h
  cases h2 : safe_float (pyGet pos.realizedPnl (.int 0)) .zero with
  | error e2 =>
      rw [h2, bindE_error] at h
      rw [← Except.error.inj h]
      exact safe_float_error h2
  | ok r =>
  rw [h2, bindE_ok] at h
  cases h3 : safe_float (pyGet pos.notional (.int 0)) .zero with
  | error e3 =>
      rw [h3, bindE_error] at h
      rw [← Except.error.inj h]
      exact safe_float_error h3
  | ok n =>
  rw [h3, bindE_ok] at h
  by_cases hg : n.gt0 = true
  · rw [if_pos hg] at h
    obtain ⟨q, hq⟩ := PyFloat.div_ok_of_gt0 (u.add r) n hg
    rw [hq, mapE_ok, bindE_ok] at h
    simp only [pureE] at h
    exact absurd h (by simp)
  · rw [if_neg hg, pureE, bindE_ok] at h
    simp only [pureE] at h
    exact absurd h (by simp)

/-- The conclusion of the amended claim C3, for one position: the
guarded-formula shape of the percentage and the absence of any
`ZeroDivisionError`.  No finiteness is asserted: non-finite normalizer
outputs propagate into the percentage, and in Python even finite double
operands can overflow to infinity (`1e308 / 1.0 * 100 == inf`), which
the exact-rational model deliberately does not reproduce. -/
def C3Conclusion (pos : Position) : Prop :=
  (∀ e, analysisPnl pos = .error e → e = .overflowError)
  ∧ (∀ total notional pct, analysisPnl pos = .ok (total, notional, pct) →
      (notional.gt0 = true →
        ∃ q, total.div notional = .ok q ∧ pct = q.mul (.finite (Q.ofInt 100)))
      ∧ (notional.gt0 = false → pct = .zero))

/-- C3 amended: for every position, the derived P&L percentage equals
total P&L divided by notional times 100 exactly when the normalized
notional compares `> 0`, and is exactly 0 otherwise (zero, negative or
NaN notional); the guard means the computation never raises
`ZeroDivisionError`.  The claim's "never surfaces NaN or Infinity" is
dropped: it is refuted by the counterexample below, and no finiteness
guarantee replaces it, since Python finite double arithmetic can itself
overflow to infinity. -/
theorem c3_pnl_pct_guarded (pos : Position) : C3Conclusion pos := by
  constructor
  · exact fun e h => analysisPnl_error h
  · intro total notional pct h
    obtain ⟨u, r, -, -, -, -, hpos, hneg⟩ := analysisPnl_ok h
    exact ⟨hpos, hneg⟩

/-- A position with unrealized P&L 1 and notional 2. -/
def pHalf : Position :=
  { Position.empty with
      unrealizedPnl := Option.some (.float (.finite (Q.ofInt 1))),
      notional := Option.some (.float (.finite (Q.ofInt 2))) }

/-- C3 witness: on `pHalf` the percentage is exactly 50 and the
division decomposition of the amended theorem holds concretely. -/
theorem c3_witness :
    analysisPnl pHalf
      = .ok (.finite (Q.ofInt 1), .finite (Q.ofInt 2), .finite (Q.ofInt 50))
    ∧ ∃ q, (PyFloat.finite (Q.ofInt 1)).div (.finite (Q.ofInt 2)) = .ok q
         ∧ (PyFloat.finite (Q.ofInt 50) : PyFloat) = q.mul (.finite (Q.ofInt 100)) :=
  ⟨by decide, ((c3_pnl_pct_guarded pHalf).2 _ _ _ (by decide)).1 (by decide)⟩

/-- The position exhibiting the C3 counterexample: an `"inf"`-normalized
unrealized P&L over a positive finite notional. -/
def pInfUnrealized : Position :=
  { Position.empty with
      unrealizedPnl := Option.some (.str "inf"),
      notional := Option.some (.float (.finite (Q.ofInt 1))) }

/-- C3 counterexample: with notional 1 (strictly positive) and an
`"inf"` unrealized P&L — which `safe_float` passes through — the
percentage is `inf`, so the computation does surface Infinity. -/
theorem c3_counterexample :
    analysisPnl pInfUnrealized = .ok (.inf, .finite (Q.ofInt 1), .inf)
    ∧ PyFloat.inf.isSpecial = true := by decide

/-- The conclusion of claim C5 for a grid built from a non-empty
position list: header-plus-one-row-per-position shape, the fixed
per-field rounding precisions of the data cells, and the concrete
`safe_round` scenario. -/
def C5Conclusion (positions : List Position) (timestamp : String)
    (rows : List (List PyVal)) : Prop :=
  (∃ dataRows, mapE (positionRow timestamp) positions = .ok dataRows
    ∧ rows = allPositionsHeaders :: dataRows
    ∧ dataRows.length = positions.length)
  ∧ (∀ pos r, positionRow timestamp pos = .ok r →
      ∃ contracts unrealized realized notional pnl_pct entry mark,
        safe_float (pyGet pos.contracts (.int 0)) .zero = .ok contracts
        ∧ safe_float (pyGet pos.unrealizedPnl (.int 0)) .zero = .ok unrealized
        ∧ safe_float (pyGet pos.realizedPnl (.int 0)) .zero = .ok realized
        ∧ safe_float (pyGet pos.notional (.int 0)) .zero = .ok notional
        ∧ safe_float (pyGet pos.entryPrice (.int 0)) .zero = .ok entry
        ∧ safe_float (pyGet pos.markPrice (.int 0)) .zero = .ok mark
        ∧ r.length = 19
        ∧ r.get? 4 = some (.float (entry.pyRound 8))
        ∧ r.get? 5 = some (.float (mark.pyRound 8))
        ∧ r.get? 6 = some (.float (contracts.pyRound 8))
        ∧ r.get? 7 = some (.float (notional.pyRound 4))
        ∧ r.get? 8 = some (.float (unrealized.pyRound 8))
        ∧ r.get? 9 = some (.float (realized.pyRound 8))
        ∧ r.get? 10 = some (.float ((unrealized.add realized).pyRound 8))
        ∧ r.get? 11 = some (.float (pnl_pct.pyRound 2))
        ∧ (notional.gt0 = true →
            ∃ q, (unrealized.add realized).div notional = .ok q
              ∧ pnl_pct = q.mul (.finite (Q.ofInt 100)))
        ∧ (notional.gt0 = false → pnl_pct = .zero))
  ∧ safe_round (.str "61234.5678912") 8 .zero = .ok (.finite (Q.norm 612345678912 (10 ^ 7)))

/-- C5 (confirmed): for every non-empty position list the grid is the
fixed header row followed by one data row per position, each numeric
field normalized and rounded at its fixed precision (entry/mark price
8, notional 4, unrealized/realized/total P&L 8, percentage 2), and
concretely `safe_round("61234.5678912", 8)` returns the number
unchanged. -/
theorem c5_positions_grid (positions : List Position) (timestamp : String)
    (rows : List (List PyVal)) (hne : positions ≠ [])
    (h : write_all_positions_rows positions timestamp = .ok rows) :
    C5Conclusion positions timestamp rows := by
  refine ⟨?_, ?_, by decide⟩
  · rw [write_all_positions_rows, if_neg (by simp [hne])] at h
    cases hm : mapE (positionRow timestamp) positions with
    | error e => rw [hm, bindE_error] at h; exact absurd h (by simp)
    | ok dataRows =>
        rw [hm, bindE_ok] at h
        simp only [pureE, Except.ok.injEq] at h
        exact ⟨dataRows, rfl, h.symm, mapE_length _ _ _ hm⟩
  · intro pos r h
    unfold positionRow at h
    cases h1 : safe_float (pyGet pos.contracts (.int 0)) .zero with
    | error e => rw [h1, bindE_error] at h; exact absurd h (by simp)
    | ok contracts =>
    rw [h1, bindE_ok] at h
    cases h2 : safe_float (pyGet pos.unrealizedPnl (.int 0)) .zero with
    | error e => rw [h2, bindE_error] at h; exact absurd h (by simp)
    | ok unrealized =>
    rw [h2, bindE_ok] at h
    cases h3 : safe_float (pyGet pos.realizedPnl (.int 0)) .zero with
    | error e => rw [h3, bindE_error] at h; exact absurd h (by simp)
    | ok realized =>
    rw [h3, bindE_ok] at h
    cases h4 : safe_float (pyGet pos.notional (.int 0)) .zero with
    | error e => rw [h4, bindE_error] at h; exact absurd h (by simp)
    | ok notional =>
    rw [h4, bindE_ok] at h
    by_cases hg : notional.gt0 = true
    · obtain ⟨q, hq⟩ := PyFloat.div_ok_of_gt0 (unrealized.add realized) notional hg
      simp only [hg, if_true, hq, mapE_ok, bindE_ok] at h
      cases h5 : safe_float (pyGet pos.entryPrice (.int 0)) .zero with
      | error e => rw [h5, bindE_error] at h; exact absurd h (by simp)
      | ok entry =>
      rw [h5, bindE_ok] at h
      cases h6 : safe_float (pyGet pos.markPrice (.int 0)) .zero with
      | error e => rw [h6, bindE_error] at h; exact absurd h (by simp)
      | ok mark =>
      rw [h6, bindE_ok] at h
      cases h7 : safe_float (pyGet pos.liquidationPrice (.int 0)) .zero with
      | error e => rw [h7, bindE_error] at h; exact absurd h (by simp)
      | ok liq =>
      rw [h7, bindE_ok] at h
      cases h8 : safe_float (pyGet pos.initialMargin (.int 0)) .zero with
      | error e => rw [h8, bindE_error] at h; exact absurd h (by simp)
      | ok im =>
      rw [h8, bindE_ok] at h
      cases h9 : safe_float (pyGet pos.marginRatio (.int 0)) .zero with
      | error e => rw [h9, bindE_error] at h; exact absurd h (by simp)
      | ok mr =>
      rw [h9, bindE_ok] at h
      cases h10 : safe_float (pyGet pos.percentage (.int 0)) .zero with
      | error e => rw [h10, bindE_error] at h; exact absurd h (by simp)
      | ok pctg =>
      rw [h10, bindE_ok] at h
      simp only [pureE, Except.ok.injEq] at h
      subst h
      exact ⟨contracts, unrealized, realized, notional,
             q.mul (.finite (Q.ofInt 100)), entry, mark,
             rfl, rfl, rfl, rfl, rfl, rfl, rfl, rfl, rfl, rfl, rfl, rfl, rfl, rfl, rfl,
             fun _ => ⟨q, hq, rfl⟩,
             fun hf => by rw [hg] at hf; exact absurd hf (by simp)⟩
    · have hg' : notional.gt0 = false := by
        cases hng : notional.gt0
        · rfl
        · exact absurd hng hg
      simp only [hg', Bool.false_eq_true, if_false, pureE, bindE_ok] at h
      cases h5 : safe_float (pyGet pos.entryPrice (.int 0)) .zero with
      | error e => rw [h5, bindE_error] at h; exact absurd h (by simp)
      | ok entry =>
      rw [h5, bindE_ok] at h
      cases h6 : safe_float (pyGet pos.markPrice (.int 0)) .zero with
      | error e => rw [h6, bindE_error] at h; exact absurd h (by simp)
      | ok mark =>
      rw [h6, bindE_ok] at h
      cases h7 : safe_float (pyGet pos.liquidationPrice (.int 0)) .zero with
      | error e => rw [h7, bindE_error] at h; exact absurd h (by simp)
      | ok liq =>
      rw [h7, bindE_ok] at h
      cases h8 : safe_float (pyGet pos.initialMargin (.int 0)) .zero with
      | error e => rw [h8, bindE_error] at h; exact absurd h (by simp)
      | ok im =>
      rw [h8, bindE_ok] at h
      cases h9 : safe_float (pyGet pos.marginRatio (.int 0)) .zero with
      | error e => rw [h9, bindE_error] at h; exact absurd h (by simp)
      | ok mr =>
      rw [h9, bindE_ok] at h
      cases h10 : safe_float (pyGet pos.percentage (.int 0)) .zero with
      | error e => rw [h10, bindE_error] at h; exact absurd h (by simp)
      | ok pctg =>
      rw [h10, bindE_ok] at h
      simp only [pureE, Except.ok.injEq] at h
      subst h
      exact ⟨contracts, unrealized, realized, notional, PyFloat.zero, entry, mark,
             rfl, rfl, rfl, rfl, rfl, rfl, rfl, rfl, rfl, rfl, rfl, rfl, rfl, rfl, rfl,
             fun hg2 => absurd hg2 hg, fun _ => rfl⟩

/-- The data row produced for the all-absent position dictionary. -/
def emptyFieldsRow : List PyVal :=
  [.str "ts", .str "", .str "", .str "CLOSED", .float .zero, .float .zero, .float .zero,
   .float .zero, .float .zero, .float .zero, .float .zero, .float .zero, .str "", .str "",
   .float .zero, .float .zero, .str "", .float .zero, .float .zero]

/-- C5 witness: the singleton list of the all-absent position yields
the header plus one all-default row. -/
theorem c5_witness :
    C5Conclusion [Position.empty] "ts" [allPositionsHeaders, emptyFieldsRow] :=
  c5_positions_grid [Position.empty] "ts" [allPositionsHeaders, emptyFieldsRow]
    (by decide) (by decide)

/-- C8 counterexample: `raise_for_status` raises only for 4xx/5xx, so
a 300 response whose body parses as a chat-completion envelope returns
the body's content — not a sentinel error string — although 300 is not
a 2xx status. -/
theorem c8_counterexample :
    send_to_perplexity_for_analysis (.response 300 (.ok "analysis")) = "analysis"
    ∧ "analysis" ≠ perplexitySentinel
    ∧ 299 < 300 :=
  ⟨rfl, by decide, by decide⟩

/-- C8 amended: the narrative request returns the fixed sentinel on a
transport error and on every 4xx/5xx response; on any other status a
body that fails to parse yields an error-prefixed string; a parseable
body is returned as the analysis.  In every case a string is returned
and no exception escapes (the function is total by construction). -/
theorem c8_degrades (outcome : HttpOutcome) :
    (outcome = .networkError →
      send_to_perplexity_for_analysis outcome = perplexitySentinel)
    ∧ (∀ status parse, outcome = .response status parse →
        400 ≤ status → status < 600 →
        send_to_perplexity_for_analysis outcome = perplexitySentinel)
    ∧ (∀ status msg, outcome = .response status (.error msg) →
        ¬(400 ≤ status ∧ status < 600) →
        send_to_perplexity_for_analysis outcome = "Error: " ++ msg)
    ∧ (∀ status content, outcome = .response status (.ok content) →
        ¬(400 ≤ status ∧ status < 600) →
        send_to_perplexity_for_analysis outcome = content) := by
  refine ⟨fun h => by rw [h]; rfl, ?_, ?_, ?_⟩
  · intro s p h h4 h6
    subst h
    simp [send_to_perplexity_for_analysis, h4, h6]
  · intro s m h hn
    subst h
    simp [send_to_perplexity_for_analysis, hn]
  · intro s c h hn
    subst h
    simp [send_to_perplexity_for_analysis, hn]

/-- C8 witness: a 404 with unparseable body and a transport error both
yield the sentinel. -/
theorem c8_witness :
    send_to_perplexity_for_analysis (.response 404 (.error "boom")) = perplexitySentinel
    ∧ send_to_perplexity_for_analysis .networkError = perplexitySentinel :=
  ⟨(c8_degrades (.response 404 (.error "boom"))).2.1 404 (.error "boom") rfl
      (by decide) (by decide),
   (c8_degrades .networkError).1 rfl⟩

/-! ## Narrative-to-grid equivalence (claim C1) -/

/-- The contribution of one line to the analysis grid: nothing when
the stripped line is empty, one single-cell row otherwise. -/
def lineCell (l : List Char) : List (List (List Char)) :=
  if (pyStrip l).isEmpty then [] else [[pyStrip l]]

/-- All rows contributed by one paragraph. -/
def lineRowsOf (p : List Char) : List (List (List Char)) :=
  (splitLines p).flatMap lineCell

theorem consHead_append (c : Char) (xs ys : List (List Char)) (h : xs ≠ []) :
    consHead c (xs ++ ys) = consHead c xs ++ ys := by
  cases xs with
  | nil => exact absurd rfl h
  | cons l ls => rfl

theorem splitLines_ne_nil (cs : List Char) : splitLines cs ≠ [] := by
  cases cs with
  | nil => simp [splitLines]
  | cons c cs =>
      simp only [splitLines]
      by_cases h : c = '\n'
      · simp [h]
      · rw [if_neg h]
        cases hs : splitLines cs <;> simp [consHead]

theorem splitParas_ne_nil (cs : List Char) : splitParas cs ≠ [] := by
  match cs with
  | [] => simp [splitParas]
  | [c] => simp [splitParas]
  | c1 :: c2 :: cs =>
      simp only [splitParas]
      split
      · simp
      · cases hs : splitParas (c2 :: cs) <;> simp [consHead]

theorem splitParas_cons (cs : List Char) : ∃ p ps, splitParas cs = p :: ps := by
  cases hs : splitParas cs with
  | nil => exact absurd hs (splitParas_ne_nil cs)
  | cons p ps => exact ⟨p, ps, rfl⟩

theorem splitLines_cons' (cs : List Char) : ∃ l ls, splitLines cs = l :: ls := by
  cases hs : splitLines cs with
  | nil => exact absurd hs (splitLines_ne_nil cs)
  | cons l ls => exact ⟨l, ls, rfl⟩

theorem pyStrip_eq_nil_iff (l : List Char) :
    pyStrip l = [] ↔ ∀ c ∈ l, isPySpace c := by
  unfold pyStrip
  constructor
  · intro h c hc
    rw [List.reverse_eq_nil_iff, List.dropWhile_eq_nil_iff] at h
    have hsplit : c ∈ l.takeWhile isPySpace ++ l.dropWhile isPySpace := by
      rw [List.takeWhile_append_dropWhile]
      exact hc
    rcases List.mem_append.mp hsplit with h1 | h2
    · exact List.mem_takeWhile_imp h1
    · exact h c (List.mem_reverse.mpr h2)
  · intro h
    have hd : l.dropWhile isPySpace = [] :=
      List.dropWhile_eq_nil_iff.mpr (fun x hx => h x hx)
    simp [hd]

theorem splitLines_all_space (p : List Char) (hall : ∀ c ∈ p, isPySpace c) :
    ∀ l ∈ splitLines p, ∀ c ∈ l, isPySpace c := by
  induction p with
  | nil =>
      intro l hl
      simp [splitLines] at hl
      subst hl
      simp
  | cons c cs ih =>
      intro l hl
      have htail : ∀ x ∈ cs, isPySpace x :=
        fun x hx => hall x (List.mem_cons_of_mem _ hx)
      simp only [splitLines] at hl
      by_cases hc : c = '\n'
      · rw [if_pos hc] at hl
        rcases List.mem_cons.mp hl with rfl | hl2
        · simp
        · exact ih htail l hl2
      · rw [if_neg hc] at hl
        obtain ⟨l0, ls, hs⟩ := splitLines_cons' cs
        rw [hs] at hl
        simp only [consHead] at hl
        rcases List.mem_cons.mp hl with rfl | hl2
        · intro x hx
          rcases List.mem_cons.mp hx with rfl | hx2
          · exact hall x (List.mem_cons_self _ _)
          · exact ih htail l0 (by rw [hs]; exact List.mem_cons_self _ _) x hx2
        · exact ih htail l (by rw [hs]; exact List.mem_cons_of_mem _ hl2)

theorem lineRowsOf_blank {p : List Char} (hp : pyStrip p = []) :
    lineRowsOf p = [] := by
  unfold lineRowsOf
  rw [List.flatMap_eq_nil_iff]
  intro l hl
  have hw := (pyStrip_eq_nil_iff p).mp hp
  have hlw : pyStrip l = [] :=
    (pyStrip_eq_nil_iff l).mpr (splitLines_all_space p hw l hl)
  simp [lineCell, hlw]

theorem inner_rows (xs : List (List Char)) :
    (xs.filter (fun l => !(pyStrip l).isEmpty)).map (fun l => [pyStrip l])
      = xs.flatMap lineCell := by
  induction xs with
  | nil => rfl
  | cons x xs ih =>
      simp only [List.filter_cons, List.flatMap_cons]
      by_cases hx : (pyStrip x).isEmpty = true
      · rw [show (!(pyStrip x).isEmpty) = false by simp [hx]]
        simp only [Bool.false_eq_true, if_false]
        rw [ih]
        simp [lineCell, hx]
      · rw [show (!(pyStrip x).isEmpty) = true by simp [hx]]
        simp only [if_true, List.map_cons]
        rw [ih]
        simp [lineCell, hx]

theorem filter_flatMap_blank (ps : List (List Char)) :
    ((ps.filter (fun p => !(pyStrip p).isEmpty)).flatMap lineRowsOf)
      = ps.flatMap lineRowsOf := by
  induction ps with
  | nil => rfl
  | cons p ps ih =>
      simp only [List.filter_cons, List.flatMap_cons]
      by_cases hp : (pyStrip p).isEmpty = true
      · rw [show (!(pyStrip p).isEmpty) = false by simp [hp]]
        simp only [Bool.false_eq_true, if_false]
        rw [ih, lineRowsOf_blank (List.isEmpty_iff.mp hp)]
        rfl
      · rw [show (!(pyStrip p).isEmpty) = true by simp [hp]]
        simp only [if_true, List.flatMap_cons]
        rw [ih]

/-- The line decomposition of the whole text factors through its
paragraph decomposition: the lines of the first paragraph are a prefix
of the lines of the text, and the remaining lines contribute exactly
the rows of the remaining paragraphs. -/
theorem splitParas_lines :
    ∀ (cs : List Char) (p : List Char) (ps : List (List Char)),
      splitParas cs = p :: ps →
      ∃ T, splitLines cs = splitLines p ++ T
        ∧ T.flatMap lineCell = ps.flatMap lineRowsOf := by
  intro cs
  induction cs using splitParas.induct with
  | case1 =>
      intro p ps h
      simp only [splitParas] at h
      obtain ⟨rfl, rfl⟩ : p = [] ∧ ps = [] := by
        constructor <;> [exact (List.cons.inj h.symm).1; exact (List.cons.inj h.symm).2]
      exact ⟨[], by simp, rfl⟩
  | case2 c =>
      intro p ps h
      simp only [splitParas] at h
      obtain ⟨rfl, rfl⟩ : p = [c] ∧ ps = [] := by
        constructor <;> [exact (List.cons.inj h.symm).1; exact (List.cons.inj h.symm).2]
      exact ⟨[], by simp, rfl⟩
  | case3 c1 c2 cs hcond ih =>
      intro p ps h
      obtain ⟨hc1, hc2⟩ : c1 = '\n' ∧ c2 = '\n' := by
        simpa [Bool.and_eq_true] using hcond
      subst hc1; subst hc2
      rw [show splitParas ('\n' :: '\n' :: cs) = [] :: splitParas cs by
            simp [splitParas]] at h
      obtain ⟨rfl, hps⟩ : p = [] ∧ splitParas cs = ps :=
        ⟨(List.cons.inj h.symm).1, (List.cons.inj h).2⟩
      obtain ⟨p', ps', hs'⟩ := splitParas_cons cs
      obtain ⟨T', hT1, hT2⟩ := ih p' ps' hs'
      refine ⟨[] :: splitLines cs, ?_, ?_⟩
      · show splitLines ('\n' :: '\n' :: cs) = splitLines [] ++ ([] :: splitLines cs)
        simp [splitLines]
      · show ([] :: splitLines cs).flatMap lineCell = ps.flatMap lineRowsOf
        rw [List.flatMap_cons]
        rw [show lineCell [] = [] from rfl, List.nil_append]
        rw [← hps, hs', List.flatMap_cons]
        rw [hT1, List.flatMap_append, hT2]
        rfl
  | case4 c1 c2 cs hcond ih =>
      intro p ps h
      rw [show splitParas (c1 :: c2 :: cs)
            = consHead c1 (splitParas (c2 :: cs)) by
          simp only [splitParas]
          rw [if_neg (by simpa using hcond)]] at h
      obtain ⟨p0, ps0, hs0⟩ := splitParas_cons (c2 :: cs)
      rw [hs0] at h
      simp only [consHead] at h
      obtain ⟨rfl, rfl⟩ : p = c1 :: p0 ∧ ps0 = ps :=
        ⟨(List.cons.inj h.symm).1, (List.cons.inj h).2⟩
      obtain ⟨T0, hT1, hT2⟩ := ih p0 ps0 hs0
      by_cases hc1 : c1 = '\n'
      · subst hc1
        refine ⟨T0, ?_, hT2⟩
        rw [show splitLines ('\n' :: c2 :: cs) = [] :: splitLines (c2 :: cs) by
              simp [splitLines]]
        rw [show splitLines ('\n' :: p0) = [] :: splitLines p0 by
              simp [splitLines]]
        rw [hT1]
        rfl
      · refine ⟨T0, ?_, hT2⟩
        rw [show splitLines (c1 :: c2 :: cs) = consHead c1 (splitLines (c2 :: cs)) by
              simp only [splitLines]; rw [if_neg hc1]]
        rw [show splitLines (c1 :: p0) = consHead c1 (splitLines p0) by
              simp only [splitLines]; rw [if_neg hc1]]
        rw [hT1, consHead_append _ _ _ (splitLines_ne_nil p0)]

/-- Flattening rows paragraph-by-paragraph is the same as flattening
the whole text line-by-line. -/
theorem splitParas_flatten (cs : List Char) :
    (splitParas cs).flatMap lineRowsOf = (splitLines cs).flatMap lineCell := by
  obtain ⟨p, ps, hs⟩ := splitParas_cons cs
  obtain ⟨T, h1, h2⟩ := splitParas_lines cs p ps hs
  rw [hs, List.flatMap_cons, h1, List.flatMap_append, h2]
  rfl

/-- The narrative text of the C1 scenario. -/
def narrativeC1 : String := "## Summary\n- Buy BTC\n**Confidence: high**\nShort filler"

/-- C1 counterexample: the analysis rows keep each line verbatim — the
heading, bullet and bold markers are not stripped, no blank row is
inserted after the heading, and the 12-character "Short filler" line is
kept — so the grid differs from the one the claim predicts. -/
theorem c1_counterexample :
    write_analysis_rows narrativeC1.data
      = [["## Summary".data], ["- Buy BTC".data], ["**Confidence: high**".data],
         ["Short filler".data]]
    ∧ write_analysis_rows narrativeC1.data
      ≠ [["Summary".data], ["".data], ["Buy BTC".data], ["Confidence: high".data]] := by
  constructor
  · decide
  · decide

/-- C1 amended: the narrative-to-grid conversion is a line-oriented
pass in which every line that is non-blank after whitespace stripping
becomes a single-cell row holding the stripped line verbatim (no
marker is stripped, no blank row inserted, no short line dropped, and
the paragraph pre-split on blank-line separators does not change the
result); the concrete text yields the rows `["## Summary"],
["- Buy BTC"], ["**Confidence: high**"], ["Short filler"]`. -/
theorem c1_narrative_rows_verbatim :
    (∀ cs : List Char,
      write_analysis_rows cs
        = ((splitLines cs).filter (fun l => !(pyStrip l).isEmpty)).map
            (fun l => [pyStrip l]))
    ∧ write_analysis_rows narrativeC1.data
      = [["## Summary".data], ["- Buy BTC".data], ["**Confidence: high**".data],
         ["Short filler".data]] := by
  constructor
  · intro cs
    unfold write_analysis_rows
    simp only [inner_rows]
    show ((splitParas cs).filter (fun p => !(pyStrip p).isEmpty)).flatMap lineRowsOf
        = (splitLines cs).flatMap lineCell
    rw [filter_flatMap_blank, splitParas_flatten]
  · decide

end BingX

